import Mathlib

/-!
# Verification of the go-neb GitHub webhook service

A shallow embedding of `services/github/github_webhook.go` from the
`go-neb` repository, together with theorems checking its natural-language
specification.

Strings are modelled as `List Char` (`GoStr`), so that Go's
`strings.Split`, `strings.Count`, `strings.Contains` and
`strings.EqualFold` become simple structural functions amenable to proof.
Go maps are modelled as association lists (iteration order fixed by the
list; the properties proved are order-insensitive).  External
collaborators (the matrix client, the GitHub REST client, the service
database, the webhook request parser) are modelled as oracle parameters,
as the specification treats them as out-of-scope collaborators.
-/

set_option autoImplicit false

namespace GoNeb

/-- Go strings, modelled as lists of characters. -/
abbrev GoStr := List Char

/-- `strings.Count(s, sep)` for a single-character separator:
the number of occurrences of `sep` in `s`. -/
def countChar (sep : Char) (s : GoStr) : Nat :=
  s.count sep

/-- Helper for `strings.Split` with a single-character separator:
returns the first segment and the list of remaining segments. -/
def splitAux (sep : Char) : GoStr → GoStr × List GoStr
  | [] => ([], [])
  | c :: rest =>
    if c = sep then ([], (splitAux sep rest).1 :: (splitAux sep rest).2)
    else (c :: (splitAux sep rest).1, (splitAux sep rest).2)

/-- `strings.Split(s, sep)` for a single-character separator `sep`:
splits `s` into the segments between occurrences of `sep`.
`splitOnChar sep s` always has `countChar sep s + 1` elements, and
`splitOnChar sep [] = [[]]`, matching Go's behaviour. -/
def splitOnChar (sep : Char) (s : GoStr) : List GoStr :=
  (splitAux sep s).1 :: (splitAux sep s).2

/-- `strings.EqualFold(a, b)`: case-insensitive equality
(modelled by simple per-character lowercasing). -/
def eqFold (a b : GoStr) : Bool :=
  a.map Char.toLower == b.map Char.toLower

/-- Does `s` start with `pre`? (helper for substring containment). -/
def startsWithStr : GoStr → GoStr → Bool
  | _, [] => true
  | [], _ :: _ => false
  | c :: cs, d :: ds => c = d && startsWithStr cs ds

/-- `strings.Contains(hay, needle)`: does `needle` occur as a contiguous
substring of `hay`? -/
def containsSub (hay needle : GoStr) : Bool :=
  match hay with
  | [] => needle.isEmpty
  | _ :: t => startsWithStr hay needle || containsSub t needle

/-- `{ Events []string }` — the per-repo binding: the event types a room
subscribed to for one repository. -/
structure RepoConfig where
  Events : List GoStr
  deriving DecidableEq, Inhabited

/-- The per-room binding: `owner/repo` key → `RepoConfig`
(a Go map, modelled as an association list). -/
structure RoomConfig where
  Repos : List (GoStr × RepoConfig)
  deriving DecidableEq, Inhabited

/-- The `githubWebhookService` struct. -/
structure GithubWebhookService where
  id : GoStr
  serviceUserID : GoStr
  webhookEndpointURL : GoStr
  ClientUserID : GoStr
  RealmID : GoStr
  SecretToken : GoStr
  Rooms : List (GoStr × RoomConfig)
  deriving DecidableEq

/-- The body of the inner `repoList` loop: skip a key whose `/`-count is
not exactly 1, skip a key already collected, otherwise append it. -/
def insertRepo (repos : List GoStr) (ownerRepo : GoStr) : List GoStr :=
  if countChar '/' ownerRepo ≠ 1 then repos
  else if ownerRepo ∈ repos then repos
  else repos ++ [ownerRepo]

/-- Fold `insertRepo` over the repo keys of one room. -/
def addKeys (repos : List GoStr) (keys : List GoStr) : List GoStr :=
  keys.foldl insertRepo repos

/-- `repoList`: the deduplicated list of `owner/repo` keys across all
rooms, skipping keys that do not contain exactly one `/`. -/
def repoList (s : GithubWebhookService) : List GoStr :=
  s.Rooms.foldl (fun repos room => addKeys repos (room.2.Repos.map Prod.fst)) []

/-! ## The webhook gateway (`OnReceiveWebhook`) -/

/-- The result of the webhook request parser `webhook.OnReceiveRequest`
(an external collaborator, out of scope per the spec): either an error
carrying the HTTP status code to write, or the event type, the repo full
name, and the rendered message. -/
abbrev ParseResult := Except Nat (GoStr × GoStr × GoStr)

/-- The observable outcome of one `OnReceiveWebhook` call: the HTTP
status written, the sends attempted (room ID paired with that send's
success as reported by the matrix client), and the
`deleteHook(owner, repo)` calls made, each paired with its outcome
(`none` = success, `some e` = error; the code only logs it). -/
structure WebhookOutcome where
  status : Nat
  sends : List (GoStr × Bool)
  deleteAttempts : List ((GoStr × GoStr) × Option GoStr)
  deriving DecidableEq

/-- The inner loop body of `OnReceiveWebhook` over one room's repo map:
the accumulator is `(repoExistsInConfig, sends so far)`.  A key that does
not match `fullName` case-insensitively is skipped (`continue`); a
matching key sets `repoExistsInConfig` even when no event type matches,
and when the event type is among the binding's `Events` a send to the
room is attempted. -/
def scanRepos (evType fullName roomID : GoStr) (sendOk : GoStr → Bool)
    (acc : Bool × List (GoStr × Bool)) (repos : List (GoStr × RepoConfig)) :
    Bool × List (GoStr × Bool) :=
  repos.foldl (fun a kv =>
    if eqFold fullName kv.1 = false then a
    else (true,
      if evType ∈ kv.2.Events then a.2 ++ [(roomID, sendOk roomID)] else a.2)) acc

/-- The double loop of `OnReceiveWebhook` over `s.Rooms`. -/
def webhookScan (s : GithubWebhookService) (evType fullName : GoStr)
    (sendOk : GoStr → Bool) : Bool × List (GoStr × Bool) :=
  s.Rooms.foldl
    (fun acc room => scanRepos evType fullName room.1 sendOk acc room.2.Repos)
    (false, [])

/-- The tail of `OnReceiveWebhook`: when no binding referenced the repo,
split the full name on `/`; a result other than exactly two segments is
malformed (400, no delete), otherwise attempt one hook delete and write
200 whatever its outcome. -/
def webhookRoute (s : GithubWebhookService) (evType fullName : GoStr)
    (sendOk : GoStr → Bool) (delOutcome : GoStr → GoStr → Option GoStr) :
    WebhookOutcome :=
  if (webhookScan s evType fullName sendOk).1 = false then
    match splitOnChar '/' fullName with
    | [owner, repo] =>
      ⟨200, (webhookScan s evType fullName sendOk).2,
        [((owner, repo), delOutcome owner repo)]⟩
    | _ => ⟨400, (webhookScan s evType fullName sendOk).2, []⟩
  else ⟨200, (webhookScan s evType fullName sendOk).2, []⟩

/-- `OnReceiveWebhook`: on parse/verification failure write the parser's
status code and stop; otherwise fan out to the matching rooms and handle
the unreferenced-repo (orphaned hook) case. -/
def OnReceiveWebhook (s : GithubWebhookService) (parsed : ParseResult)
    (sendOk : GoStr → Bool) (delOutcome : GoStr → GoStr → Option GoStr) :
    WebhookOutcome :=
  match parsed with
  | .error code => ⟨code, [], []⟩
  | .ok (evType, fullName, _msg) => webhookRoute s evType fullName sendOk delOutcome

/-- The spec's malformedness test: the string splits on `/` into exactly
two non-empty segments.  (Stated from the spec's words, for comparison
with the code's actual checks, which allow empty segments.) -/
def twoNonEmptySegs (s : GoStr) : Bool :=
  match splitOnChar '/' s with
  | [a, b] => !a.isEmpty && !b.isEmpty
  | _ => false

/-- Per-room sends produced by one room during the scan (characterization
used by the lemmas below): one attempted send per key of the room that
matches case-insensitively and subscribes to the event type. -/
def roomSends (evType fullName : GoStr) (sendOk : GoStr → Bool)
    (room : GoStr × RoomConfig) : List (GoStr × Bool) :=
  List.replicate
    ((room.2.Repos.filter
        (fun kv => eqFold fullName kv.1 && decide (evType ∈ kv.2.Events))).length)
    (room.1, sendOk room.1)

/-! ## Hook lifecycle (`createHook`, `deleteHook`) -/

/-- A GitHub client error for a create-hook call: either a
`*github.ErrorResponse` carrying a list of error messages, or any other
error value. -/
inductive GHErr where
  | errorResponse (msgs : List GoStr)
  | other (e : GoStr)
  deriving DecidableEq

/-- The hook-creation request assembled by `createHook` before calling
`cli.Repositories.CreateHook`: owner and repo are the first two entries
of the split (`o[0]`, `o[1]` in the source, with no bounds check;
modelled with `List.get?` so an out-of-range index shows up as `none`),
plus the fixed hook configuration. -/
structure HookRequest where
  owner : Option GoStr
  repo : Option GoStr
  contentType : GoStr
  url : GoStr
  secret : Option GoStr
  events : List GoStr
  deriving DecidableEq

/-- The fixed event-type superset every created hook subscribes to. -/
def allHookEvents : List GoStr :=
  ["push".toList, "pull_request".toList, "issues".toList,
   "issue_comment".toList, "pull_request_review_comment".toList]

/-- The request part of `createHook`. -/
def createHookRequest (s : GithubWebhookService) (ownerRepo : GoStr) : HookRequest :=
  { owner := (splitOnChar '/' ownerRepo).get? 0
    repo := (splitOnChar '/' ownerRepo).get? 1
    contentType := "json".toList
    url := s.webhookEndpointURL
    secret := if s.SecretToken.isEmpty then none else some s.SecretToken
    events := allHookEvents }

/-- `createHook`: assembles the request and post-processes the provider's
response `(HTTP status, error)`: a 422 whose `*github.ErrorResponse`
detail contains a message containing "already exists" is absorbed
(success); any other 422 detail, a 422 whose error is not an
`ErrorResponse`, and any other status propagate the error unchanged. -/
def createHook (s : GithubWebhookService) (ownerRepo : GoStr)
    (statusCode : Nat) (err : Option GHErr) : HookRequest × Option GHErr :=
  (createHookRequest s ownerRepo,
   if statusCode = 422 then
     match err with
     | some (.errorResponse msgs) =>
       if msgs.any (fun m => containsSub m ("already exists".toList))
       then none
       else some (.errorResponse msgs)
     | e => e
   else err)

/-- The `config["url"]` value of a remote hook: absent (or nil), a
non-string value, or a string. -/
inductive HookURL where
  | missing
  | nonString
  | url (u : GoStr)
  deriving DecidableEq

/-- A remote hook as returned by `ListHooks`. -/
structure Hook where
  hookID : Nat
  config : HookURL
  deriving DecidableEq

/-- The hook-selection test of `deleteHook`: hooks whose `config["url"]`
is nil or not a string are skipped; otherwise compare the URL with the
bridge's endpoint. -/
def hookMatches (endpoint : GoStr) (h : Hook) : Bool :=
  match h.config with
  | .url u => u == endpoint
  | _ => false

/-- The outcome of a `deleteHook` call. -/
inductive DeleteHookResult where
  | noClient
  | listErr (e : GoStr)
  | notFound
  | deleted (hookID : Nat) (result : Option GoStr)
  deriving DecidableEq

/-- `deleteHook(owner, repo)`: without an authenticated client
(`githubClientFor` returned nil, i.e. no token) fail immediately;
otherwise list the repo's hooks, select the first whose `config["url"]`
string equals `webhookEndpointURL` (skipping nil and non-string values),
fail with a not-found error when none matches, else delete the selected
hook and return the provider's outcome. -/
def deleteHook (s : GithubWebhookService) (hasClient : Bool)
    (listResult : Except GoStr (List Hook))
    (delOutcome : Nat → Option GoStr) : DeleteHookResult :=
  if hasClient = false then .noClient
  else
    match listResult with
    | .error e => .listErr e
    | .ok hooks =>
      match hooks.find? (hookMatches s.webhookEndpointURL) with
      | none => .notFound
      | some h => .deleted h.hookID (delOutcome h.hookID)

/-! ## Reconciliation (`Register`, `PostRegister`) -/

/-- Modelled from the spec: `util.Difference` (package `go-neb/util`) is
code of this repository not among the given sources.  Per spec §4.1,
`diff(newRepos, oldRepos) -> (added, removed)` is the set difference in
both directions: the elements of `a` absent from `b`, and the elements
of `b` absent from `a`. -/
def difference (a b : List GoStr) : List GoStr × List GoStr :=
  (a.filter (fun x => decide (x ∉ b)), b.filter (fun x => decide (x ∉ a)))

/-- The `oldService types.Service` argument of `Register` and
`PostRegister`: nil, a service of some other dynamic type (so the cast
to `*githubWebhookService` fails), or an old github-webhook service. -/
inductive OldServiceArg where
  | nil
  | other (serviceID serviceType : GoStr)
  | github (s : GithubWebhookService)

/-- An auth realm as loaded from the service database. -/
structure AuthRealm where
  realmID : GoStr
  realmType : GoStr
  deriving DecidableEq

/-- The errors `loadRealm` can produce. -/
inductive LoadRealmErr where
  | missingRealmID
  | dbErr (e : GoStr)
  | wrongType (t : GoStr)
  deriving DecidableEq

/-- `loadRealm`: requires a non-empty `RealmID`, loads the realm from
the database (`lookup` is the database's answer for `s.RealmID`), and
requires the realm's type to be exactly "github". -/
def loadRealm (s : GithubWebhookService) (lookup : Except GoStr AuthRealm) :
    Except LoadRealmErr AuthRealm :=
  if s.RealmID.isEmpty then .error .missingRealmID
  else
    match lookup with
    | .error e => .error (.dbErr e)
    | .ok realm =>
      if realm.realmType ≠ "github".toList then .error (.wrongType realm.realmType)
      else .ok realm

/-- The errors `Register` can surface. -/
inductive RegErr where
  | missingFields
  | realmErr (e : LoadRealmErr)
  | noSession
  | noWebhooks
  | hookErr (repo e : GoStr)
  | joinErr (room e : GoStr)
  deriving DecidableEq

/-- The observable outcome of `Register`: its result (`none` = success)
plus the hook creations and room joins attempted, in order. -/
structure RegisterOutcome where
  result : Option RegErr
  hooksAttempted : List GoStr
  joinsAttempted : List GoStr
  deriving DecidableEq

/-- The environment `Register` runs in: the database's realm row for
`s.RealmID`, whether `getTokenForUser` yields a token for
`(RealmID, ClientUserID)` (the github client resolves iff it does), the
provider's per-repo create-hook outcome and the matrix client's
per-room join outcome (`none` = success). -/
structure RegisterEnv where
  realmLookup : Except GoStr AuthRealm
  hasToken : Bool
  createOutcome : GoStr → Option GoStr
  joinOutcome : GoStr → Option GoStr

/-- The `Register` hook-creation loop: attempt each repo in order,
stopping at (and surfacing) the first failure. -/
def createLoop (outcome : GoStr → Option GoStr) :
    List GoStr → List GoStr × Option (GoStr × GoStr)
  | [] => ([], none)
  | r :: rs =>
    match outcome r with
    | some e => ([r], some (r, e))
    | none => (r :: (createLoop outcome rs).1, (createLoop outcome rs).2)

/-- `joinWebhookRooms`: join every configured room, aborting on the
first failure. -/
def joinLoop (outcome : GoStr → Option GoStr) :
    List GoStr → List GoStr × Option (GoStr × GoStr)
  | [] => ([], none)
  | r :: rs =>
    match outcome r with
    | some e => ([r], some (r, e))
    | none => (r :: (joinLoop outcome rs).1, (joinLoop outcome rs).2)

/-- The old-service repo list as computed by `Register`: empty when the
old service is nil or fails the dynamic cast (both non-fatal there, the
cast failure is only logged). -/
def oldReposRegister : OldServiceArg → List GoStr
  | .github o => repoList o
  | _ => []

/-- `Register`: the `RealmID`/`ClientUserID` guard, the realm check, the
client resolution, the delta against the old service, the no-webhooks
guard, hook creation for the added repos (abort on first failure), and
joining every configured room (abort on first failure). -/
def Register (s : GithubWebhookService) (oldService : OldServiceArg)
    (env : RegisterEnv) : RegisterOutcome :=
  if s.RealmID.isEmpty || s.ClientUserID.isEmpty then ⟨some .missingFields, [], []⟩
  else
    match loadRealm s env.realmLookup with
    | .error e => ⟨some (.realmErr e), [], []⟩
    | .ok _realm =>
      if env.hasToken = false then ⟨some .noSession, [], []⟩
      else
        if (repoList s).isEmpty
            && ((difference (repoList s) (oldReposRegister oldService)).2).isEmpty then
          ⟨some .noWebhooks, [], []⟩
        else
          match (createLoop env.createOutcome
              (difference (repoList s) (oldReposRegister oldService)).1).2 with
          | some (r, e) =>
            ⟨some (.hookErr r e),
             (createLoop env.createOutcome
               (difference (repoList s) (oldReposRegister oldService)).1).1, []⟩
          | none =>
            match (joinLoop env.joinOutcome (s.Rooms.map Prod.fst)).2 with
            | some (rm, e) =>
              ⟨some (.joinErr rm e),
               (createLoop env.createOutcome
                 (difference (repoList s) (oldReposRegister oldService)).1).1,
               (joinLoop env.joinOutcome (s.Rooms.map Prod.fst)).1⟩
            | none =>
              ⟨none,
               (createLoop env.createOutcome
                 (difference (repoList s) (oldReposRegister oldService)).1).1,
               (joinLoop env.joinOutcome (s.Rooms.map Prod.fst)).1⟩

/-- The observable outcome of `PostRegister`: the hook deletes attempted
(as `owner/repo` full names in order, each with the outcome of the
delete, which the code only logs), and the service IDs present in
storage afterwards. -/
structure PostRegisterOutcome where
  deleteAttempts : List (GoStr × Option GoStr)
  finalDb : List GoStr
  deriving DecidableEq

/-- The cleanup tail of `PostRegister`: delete the hook of every repo of
the old list absent from the new one, then self-prune: when the new
repo list is empty, remove this service's record from the database
(whose delete operation is modelled as functioning; its error is only
logged by the code). -/
def postRegisterCleanup (s : GithubWebhookService) (oldRepos : List GoStr)
    (db : List GoStr) (deleteOutcome : GoStr → Option GoStr) : PostRegisterOutcome :=
  ⟨((difference (repoList s) oldRepos).2).map (fun r => (r, deleteOutcome r)),
   if (repoList s).isEmpty then db.filter (fun i => decide (i ≠ s.id)) else db⟩

/-- `PostRegister`: when a non-nil old service fails the dynamic cast,
return at once (no cleanup at all); otherwise run the delta deletion and
self-pruning with the old repo list (empty when the old service is
nil). -/
def PostRegister (s : GithubWebhookService) (oldService : OldServiceArg)
    (db : List GoStr) (deleteOutcome : GoStr → Option GoStr) : PostRegisterOutcome :=
  match oldService with
  | .other _ _ => ⟨[], db⟩
  | .nil => postRegisterCleanup s [] db deleteOutcome
  | .github old => postRegisterCleanup s (repoList old) db deleteOutcome

/-! ## Concrete example configurations -/

/-- The spec §8 example configuration: room `!r1` bound to
`acme/widgets` for `push`, room `!r2` bound to `acme/widgets` for
`issues`. -/
def acmeService : GithubWebhookService :=
  { id := "svc".toList
    serviceUserID := "@neb".toList
    webhookEndpointURL := "https://neb.example/webhook".toList
    ClientUserID := "@alice".toList
    RealmID := "realm1".toList
    SecretToken := "s3cret".toList
    Rooms :=
      [("!r1".toList, ⟨[("acme/widgets".toList, ⟨["push".toList]⟩)]⟩),
       ("!r2".toList, ⟨[("acme/widgets".toList, ⟨["issues".toList]⟩)]⟩)] }

/-- A configuration holding one repo key with exactly one `/` but an
empty owner segment. -/
def slashService : GithubWebhookService :=
  { id := "svc2".toList
    serviceUserID := []
    webhookEndpointURL := []
    ClientUserID := []
    RealmID := []
    SecretToken := []
    Rooms := [("!r".toList, ⟨[("/a".toList, ⟨["push".toList]⟩)]⟩)] }

/-- A configuration with zero rooms (but valid realm/user fields). -/
def emptyService : GithubWebhookService :=
  { id := "svc3".toList
    serviceUserID := "@neb".toList
    webhookEndpointURL := "https://neb.example/webhook".toList
    ClientUserID := "@alice".toList
    RealmID := "realm1".toList
    SecretToken := []
    Rooms := [] }

/-- A github-typed realm for `realm1`. -/
def githubRealm : AuthRealm := ⟨"realm1".toList, "github".toList⟩

/-- A `Register` environment where everything works: the realm is a
github realm, a token exists, and all creates and joins succeed. -/
def okEnv : RegisterEnv :=
  ⟨.ok githubRealm, true, fun _ => none, fun _ => none⟩

/-- A `Register` environment whose stored realm has type "jira". -/
def jiraEnv : RegisterEnv :=
  ⟨.ok ⟨"realm1".toList, "jira".toList⟩, true, fun _ => none, fun _ => none⟩

/-- A hook listing containing hooks with nil and non-string
`config["url"]` values, a hook with a different URL, and two hooks with
the bridge's endpoint URL. -/
def sampleHooks : List Hook :=
  [⟨1, .missing⟩, ⟨2, .nonString⟩,
   ⟨3, .url ("https://other.example/".toList)⟩,
   ⟨4, .url ("https://neb.example/webhook".toList)⟩,
   ⟨5, .url ("https://neb.example/webhook".toList)⟩]

/-! ## Lemmas about the string primitives -/

theorem splitAux_snd_length (sep : Char) (s : GoStr) :
    (splitAux sep s).2.length = countChar sep s := by
  induction s with
  | nil => rfl
  | cons c rest ih =>
    by_cases h : c = sep
    · simp [splitAux, h, countChar, List.count_cons] at ih ⊢
      omega
    · simp [splitAux, h, countChar, List.count_cons] at ih ⊢
      exact ih

theorem splitOnChar_length (sep : Char) (s : GoStr) :
    (splitOnChar sep s).length = countChar sep s + 1 := by
  simp [splitOnChar, splitAux_snd_length]

theorem splitOnChar_length_two (sep : Char) (s : GoStr)
    (h : countChar sep s = 1) : (splitOnChar sep s).length = 2 := by
  rw [splitOnChar_length, h]

/-! ## Lemmas about `repoList` -/

theorem mem_insertRepo (repos : List GoStr) (k x : GoStr) :
    x ∈ insertRepo repos k ↔ x ∈ repos ∨ (x = k ∧ countChar '/' k = 1) := by
  unfold insertRepo
  by_cases h : countChar '/' k = 1
  · by_cases hc : k ∈ repos
    · rw [if_neg (by simp [h]), if_pos hc]
      constructor
      · exact Or.inl
      · rintro (hx | ⟨rfl, _⟩)
        · exact hx
        · exact hc
    · rw [if_neg (by simp [h]), if_neg hc]
      simp [List.mem_append, h]
  · rw [if_pos (by simp [h])]
    constructor
    · exact Or.inl
    · rintro (hx | ⟨rfl, hk⟩)
      · exact hx
      · exact absurd hk h

theorem nodup_insertRepo (repos : List GoStr) (k : GoStr)
    (h : repos.Nodup) : (insertRepo repos k).Nodup := by
  unfold insertRepo
  by_cases h1 : countChar '/' k = 1
  · by_cases hc : k ∈ repos
    · rw [if_neg (by simp [h1]), if_pos hc]
      exact h
    · rw [if_neg (by simp [h1]), if_neg hc]
      refine List.Nodup.append h (List.nodup_singleton k) ?_
      intro a ha hb
      rw [List.mem_singleton] at hb
      subst hb
      exact hc ha
  · rw [if_pos (by simp [h1])]
    exact h

theorem mem_addKeys (repos keys : List GoStr) (x : GoStr) :
    x ∈ addKeys repos keys ↔
      x ∈ repos ∨ (x ∈ keys ∧ countChar '/' x = 1) := by
  induction keys generalizing repos with
  | nil => simp [addKeys]
  | cons k ks ih =>
    simp only [addKeys, List.foldl_cons] at ih ⊢
    rw [ih, mem_insertRepo]
    constructor
    · rintro ((h | ⟨rfl, h2⟩) | ⟨h1, h2⟩)
      · exact Or.inl h
      · exact Or.inr ⟨List.mem_cons_self _ _, h2⟩
      · exact Or.inr ⟨List.mem_cons_of_mem _ h1, h2⟩
    · rintro (h | ⟨h1, h2⟩)
      · exact Or.inl (Or.inl h)
      · rcases List.mem_cons.mp h1 with rfl | h1
        · exact Or.inl (Or.inr ⟨rfl, h2⟩)
        · exact Or.inr ⟨h1, h2⟩

theorem nodup_addKeys (repos keys : List GoStr)
    (h : repos.Nodup) : (addKeys repos keys).Nodup := by
  induction keys generalizing repos with
  | nil => simpa [addKeys]
  | cons k ks ih =>
    simp only [addKeys, List.foldl_cons]
    exact ih _ (nodup_insertRepo _ _ h)

theorem mem_repoList (s : GithubWebhookService) (x : GoStr) :
    x ∈ repoList s ↔
      countChar '/' x = 1 ∧
        ∃ room ∈ s.Rooms, ∃ kv ∈ room.2.Repos, kv.1 = x := by
  unfold repoList
  suffices h : ∀ (rooms : List (GoStr × RoomConfig)) (init : List GoStr),
      x ∈ rooms.foldl (fun repos room => addKeys repos (room.2.Repos.map Prod.fst)) init ↔
        x ∈ init ∨ (countChar '/' x = 1 ∧
          ∃ room ∈ rooms, ∃ kv ∈ room.2.Repos, kv.1 = x) by
    rw [h s.Rooms []]
    simp
  intro rooms
  induction rooms with
  | nil => simp
  | cons r rs ih =>
    intro init
    simp only [List.foldl_cons]
    rw [ih, mem_addKeys]
    constructor
    · rintro ((h | ⟨h1, h2⟩) | ⟨h2, room, hroom, hkv⟩)
      · exact Or.inl h
      · rcases List.mem_map.mp h1 with ⟨kv, hkv, rfl⟩
        exact Or.inr ⟨h2, r, List.mem_cons_self _ _, kv, hkv, rfl⟩
      · exact Or.inr ⟨h2, room, List.mem_cons_of_mem _ hroom, hkv⟩
    · rintro (h | ⟨h2, room, hroom, kv, hkv, rfl⟩)
      · exact Or.inl (Or.inl h)
      · rcases List.mem_cons.mp hroom with rfl | hroom
        · exact Or.inl (Or.inr ⟨List.mem_map.mpr ⟨kv, hkv, rfl⟩, h2⟩)
        · exact Or.inr ⟨h2, room, hroom, kv, hkv, rfl⟩

theorem nodup_repoList (s : GithubWebhookService) : (repoList s).Nodup := by
  unfold repoList
  suffices h : ∀ (rooms : List (GoStr × RoomConfig)) (init : List GoStr),
      init.Nodup →
      (rooms.foldl (fun repos room => addKeys repos (room.2.Repos.map Prod.fst)) init).Nodup by
    exact h s.Rooms [] List.nodup_nil
  intro rooms
  induction rooms with
  | nil => intro init h; simpa
  | cons r rs ih =>
    intro init h
    simp only [List.foldl_cons]
    exact ih _ (nodup_addKeys _ _ h)

/-! ## Lemmas about the webhook gateway -/

theorem scanRepos_nil (ev fn rid : GoStr) (ok : GoStr → Bool)
    (acc : Bool × List (GoStr × Bool)) :
    scanRepos ev fn rid ok acc [] = acc := rfl

theorem scanRepos_cons (ev fn rid : GoStr) (ok : GoStr → Bool)
    (acc : Bool × List (GoStr × Bool)) (kv : GoStr × RepoConfig)
    (rest : List (GoStr × RepoConfig)) :
    scanRepos ev fn rid ok acc (kv :: rest)
      = scanRepos ev fn rid ok
          (if eqFold fn kv.1 = false then acc
           else (true,
             if ev ∈ kv.2.Events then acc.2 ++ [(rid, ok rid)] else acc.2))
          rest := rfl

theorem scanRepos_fst (ev fn rid : GoStr) (ok : GoStr → Bool)
    (acc : Bool × List (GoStr × Bool)) (repos : List (GoStr × RepoConfig)) :
    (scanRepos ev fn rid ok acc repos).1
      = (acc.1 || repos.any (fun kv => eqFold fn kv.1)) := by
  induction repos generalizing acc with
  | nil => simp [scanRepos_nil]
  | cons kv rest ih =>
    rw [scanRepos_cons]
    cases h : eqFold fn kv.1 with
    | false => simp [h, ih, List.any_cons]
    | true =>
      simp only [h, Bool.true_eq_false, if_false, List.any_cons]
      rw [ih]
      simp [h]

theorem scanRepos_snd (ev fn rid : GoStr) (ok : GoStr → Bool)
    (acc : Bool × List (GoStr × Bool)) (repos : List (GoStr × RepoConfig)) :
    (scanRepos ev fn rid ok acc repos).2
      = acc.2 ++ List.replicate
          ((repos.filter
             (fun kv => eqFold fn kv.1 && decide (ev ∈ kv.2.Events))).length)
          (rid, ok rid) := by
  induction repos generalizing acc with
  | nil => simp [scanRepos_nil]
  | cons kv rest ih =>
    rw [scanRepos_cons]
    cases h : eqFold fn kv.1 with
    | false => simp [h, ih, List.filter_cons]
    | true =>
      simp only [h, Bool.true_eq_false, if_false]
      by_cases he : ev ∈ kv.2.Events
      · rw [ih]
        simp [List.filter_cons, h, he, List.replicate_succ]
      · rw [ih]
        simp [List.filter_cons, h, he]

theorem webhookScan_eq (s : GithubWebhookService) (ev fn : GoStr)
    (ok : GoStr → Bool) :
    webhookScan s ev fn ok
      = (s.Rooms.any (fun room => room.2.Repos.any (fun kv => eqFold fn kv.1)),
         (s.Rooms.map (roomSends ev fn ok)).flatten) := by
  unfold webhookScan
  suffices h : ∀ (rooms : List (GoStr × RoomConfig)) (acc : Bool × List (GoStr × Bool)),
      rooms.foldl (fun acc room => scanRepos ev fn room.1 ok acc room.2.Repos) acc
        = (acc.1 || rooms.any (fun room => room.2.Repos.any (fun kv => eqFold fn kv.1)),
           acc.2 ++ (rooms.map (roomSends ev fn ok)).flatten) by
    rw [h s.Rooms (false, [])]
    simp
  intro rooms
  induction rooms with
  | nil => intro acc; simp
  | cons r rs ih =>
    intro acc
    simp only [List.foldl_cons, List.any_cons, List.map_cons, List.flatten_cons]
    rw [ih]
    refine Prod.ext ?_ ?_
    · simp [scanRepos_fst, Bool.or_assoc]
    · simp [scanRepos_snd, roomSends, List.append_assoc]

theorem OnReceiveWebhook_ok_eq (s : GithubWebhookService) (ev fn msg : GoStr)
    (ok : GoStr → Bool) (del : GoStr → GoStr → Option GoStr) :
    OnReceiveWebhook s (.ok (ev, fn, msg)) ok del = webhookRoute s ev fn ok del := rfl

theorem sends_eq (s : GithubWebhookService) (ev fn msg : GoStr)
    (ok : GoStr → Bool) (del : GoStr → GoStr → Option GoStr) :
    (OnReceiveWebhook s (.ok (ev, fn, msg)) ok del).sends
      = (s.Rooms.map (roomSends ev fn ok)).flatten := by
  rw [OnReceiveWebhook_ok_eq]
  unfold webhookRoute
  rw [webhookScan_eq]
  split
  · split <;> rfl
  · rfl

theorem mem_sends_iff (s : GithubWebhookService) (ev fn msg : GoStr)
    (ok : GoStr → Bool) (del : GoStr → GoStr → Option GoStr) (roomID : GoStr) :
    roomID ∈ ((OnReceiveWebhook s (.ok (ev, fn, msg)) ok del).sends.map Prod.fst)
      ↔ ∃ room ∈ s.Rooms, room.1 = roomID ∧
          ∃ kv ∈ room.2.Repos, eqFold fn kv.1 = true ∧ ev ∈ kv.2.Events := by
  rw [sends_eq]
  simp only [List.map_flatten, List.map_map, List.mem_flatten, List.mem_map]
  constructor
  · rintro ⟨l, ⟨room, hroom, rfl⟩, hmem⟩
    simp only [Function.comp, roomSends, List.map_replicate, List.mem_replicate] at hmem
    obtain ⟨hne, rfl⟩ := hmem
    obtain ⟨kv, hkv⟩ := List.exists_mem_of_length_pos (Nat.pos_of_ne_zero hne)
    rcases List.mem_filter.mp hkv with ⟨hkv1, hkv2⟩
    simp only [Bool.and_eq_true, decide_eq_true_eq] at hkv2
    exact ⟨room, hroom, rfl, kv, hkv1, hkv2.1, hkv2.2⟩
  · rintro ⟨room, hroom, rfl, kv, hkv, h1, h2⟩
    refine ⟨(roomSends ev fn ok room).map Prod.fst, ⟨room, hroom, rfl⟩, ?_⟩
    have hmemf : kv ∈ room.2.Repos.filter
        (fun kv => eqFold fn kv.1 && decide (ev ∈ kv.2.Events)) :=
      List.mem_filter.mpr ⟨hkv, by simp [h1, h2]⟩
    have hlen : (room.2.Repos.filter
        (fun kv => eqFold fn kv.1 && decide (ev ∈ kv.2.Events))).length ≠ 0 := by
      intro hlen
      rw [List.length_eq_zero] at hlen
      simp [hlen] at hmemf
    simp [roomSends, List.map_replicate, List.mem_replicate, hlen]

theorem sends_fst_indep (s : GithubWebhookService) (ev fn msg : GoStr)
    (ok ok2 : GoStr → Bool) (del del2 : GoStr → GoStr → Option GoStr) :
    (OnReceiveWebhook s (.ok (ev, fn, msg)) ok del).sends.map Prod.fst
      = (OnReceiveWebhook s (.ok (ev, fn, msg)) ok2 del2).sends.map Prod.fst := by
  rw [sends_eq, sends_eq]
  simp only [List.map_flatten, List.map_map]
  congr 1
  apply List.map_congr_left
  intro room _
  simp [Function.comp, roomSends, List.map_replicate]

theorem route_matched (s : GithubWebhookService) (ev fn msg : GoStr)
    (ok : GoStr → Bool) (del : GoStr → GoStr → Option GoStr)
    (h : ∃ room ∈ s.Rooms, ∃ kv ∈ room.2.Repos, eqFold fn kv.1 = true) :
    (OnReceiveWebhook s (.ok (ev, fn, msg)) ok del).deleteAttempts = []
      ∧ (OnReceiveWebhook s (.ok (ev, fn, msg)) ok del).status = 200 := by
  have hflag : (webhookScan s ev fn ok).1 = true := by
    rw [webhookScan_eq]
    obtain ⟨room, hroom, kv, hkv, hfold⟩ := h
    simp only [List.any_eq_true]
    exact ⟨room, hroom, kv, hkv, hfold⟩
  rw [OnReceiveWebhook_ok_eq]
  unfold webhookRoute
  rw [hflag]
  simp

theorem route_unmatched (s : GithubWebhookService) (ev fn msg : GoStr)
    (ok : GoStr → Bool) (del : GoStr → GoStr → Option GoStr)
    (h : ∀ room ∈ s.Rooms, ∀ kv ∈ room.2.Repos, eqFold fn kv.1 = false) :
    (OnReceiveWebhook s (.ok (ev, fn, msg)) ok del)
      = if (splitOnChar '/' fn).length = 2 then
          ⟨200, [],
            [(((splitOnChar '/' fn).getD 0 [], (splitOnChar '/' fn).getD 1 []),
              del ((splitOnChar '/' fn).getD 0 []) ((splitOnChar '/' fn).getD 1 []))]⟩
        else ⟨400, [], []⟩ := by
  have hflag : (webhookScan s ev fn ok).1 = false := by
    rw [webhookScan_eq]
    simp only [List.any_eq_true, not_exists]
    rw [Bool.eq_false_iff]
    intro hc
    simp only [List.any_eq_true] at hc
    obtain ⟨room, hroom, kv, hkv, hfold⟩ := hc
    exact absurd hfold (by simp [h room hroom kv hkv])
  have hsends : (webhookScan s ev fn ok).2 = [] := by
    rw [webhookScan_eq]
    simp only
    rw [List.flatten_eq_nil_iff]
    intro l hl
    rcases List.mem_map.mp hl with ⟨room, hroom, rfl⟩
    simp only [roomSends]
    have : (room.2.Repos.filter
        (fun kv => eqFold fn kv.1 && decide (ev ∈ kv.2.Events))).length = 0 := by
      rw [List.length_eq_zero, List.filter_eq_nil_iff]
      intro kv hkv
      simp [h room hroom kv hkv]
    rw [this]
    rfl
  rw [OnReceiveWebhook_ok_eq]
  unfold webhookRoute
  rw [hflag, hsends]
  rcases hsplit : splitOnChar '/' fn with _ | ⟨a, t⟩
  · exact absurd hsplit (by simp [splitOnChar])
  · rcases t with _ | ⟨b, t2⟩
    · simp
    · rcases t2 with _ | ⟨c, t3⟩
      · simp [List.getD]
      · simp

/-! ## Claim theorems -/

theorem get?_isSome_of_length_two (l : List GoStr) (h : l.length = 2) :
    (l.get? 0).isSome ∧ (l.get? 1).isSome := by
  rcases l with _ | ⟨a, l2⟩
  · simp at h
  · rcases l2 with _ | ⟨b, t⟩
    · simp at h
    · simp

/-- C1, counterexample: the key `/a` does not split into two non-empty
segments on `/`, yet `repoList` keeps it rather than skipping it — the
code only checks that the `/` count is exactly 1 and never tests the
segments for emptiness. -/
theorem C1_counterexample :
    twoNonEmptySegs ("/a".toList) = false
      ∧ repoList slashService = ["/a".toList] := by decide

/-- C1 (amended): `repoList` returns the deduplicated union of repo keys
across all rooms; a key is skipped (with a diagnostic, never fatally)
exactly when it does not contain exactly one `/` — equivalently, when it
does not split into exactly two (possibly empty) segments on `/`; a key
appearing under multiple rooms occurs at most once in the result. -/
theorem C1_repoList_spec (s : GithubWebhookService) (x : GoStr) :
    (x ∈ repoList s ↔
        countChar '/' x = 1 ∧ ∃ room ∈ s.Rooms, ∃ kv ∈ room.2.Repos, kv.1 = x)
      ∧ (countChar '/' x = 1 ↔ (splitOnChar '/' x).length = 2)
      ∧ (repoList s).Nodup := by
  refine ⟨mem_repoList s x, ?_, nodup_repoList s⟩
  rw [splitOnChar_length]
  omega

/-- C2: for a verified delivery, exactly the rooms holding a binding
whose `owner/repo` key case-insensitively equals the delivered repo full
name and whose event set contains the delivered event type get a send
attempt; the set of rooms sent to does not depend on the per-room send
outcomes (a failed send never prevents delivery to the remaining
matching rooms); and when at least one binding matches the repo, no hook
delete is attempted and the response is 200 — even when no matching
binding's event set contains the event type. -/
theorem C2_routing (s : GithubWebhookService) (ev fn msg roomID : GoStr)
    (ok ok2 : GoStr → Bool) (del del2 : GoStr → GoStr → Option GoStr) :
    (roomID ∈ (OnReceiveWebhook s (.ok (ev, fn, msg)) ok del).sends.map Prod.fst ↔
        ∃ room ∈ s.Rooms, room.1 = roomID ∧
          ∃ kv ∈ room.2.Repos, eqFold fn kv.1 = true ∧ ev ∈ kv.2.Events)
    ∧ (OnReceiveWebhook s (.ok (ev, fn, msg)) ok del).sends.map Prod.fst
        = (OnReceiveWebhook s (.ok (ev, fn, msg)) ok2 del2).sends.map Prod.fst
    ∧ ((∃ room ∈ s.Rooms, ∃ kv ∈ room.2.Repos, eqFold fn kv.1 = true) →
        (OnReceiveWebhook s (.ok (ev, fn, msg)) ok del).deleteAttempts = []
          ∧ (OnReceiveWebhook s (.ok (ev, fn, msg)) ok del).status = 200) :=
  ⟨mem_sends_iff s ev fn msg ok del roomID,
   sends_fst_indep s ev fn msg ok ok2 del del2,
   fun h => route_matched s ev fn msg ok del h⟩

/-- C2, witness: the spec §8 example — a `pull_request` delivery for
`acme/widgets` on the acme configuration matches bindings (so no hook
delete happens and the response is 200) even though neither room
subscribed to `pull_request`. -/
theorem C2_witness :
    (OnReceiveWebhook acmeService
        (.ok ("pull_request".toList, "acme/widgets".toList, "m".toList))
        (fun _ => true) (fun _ _ => none)).deleteAttempts = []
    ∧ (OnReceiveWebhook acmeService
        (.ok ("pull_request".toList, "acme/widgets".toList, "m".toList))
        (fun _ => true) (fun _ _ => none)).status = 200 :=
  (C2_routing acmeService ("pull_request".toList) ("acme/widgets".toList)
      ("m".toList) ("!r1".toList) (fun _ => true) (fun _ => false)
      (fun _ _ => none) (fun _ _ => none)).2.2 (by decide)

/-- C3, counterexample: a verified delivery for repo full name `/ghost`
(no binding matches it, and it does not split into two *non-empty*
segments — the owner segment is empty): the claim requires a 400
response with no delete attempt, but the code responds 200 and attempts
one hook delete with owner `""` and repo `"ghost"`, because it only
checks that the split yields exactly two segments. -/
theorem C3_counterexample :
    twoNonEmptySegs ("/ghost".toList) = false
      ∧ OnReceiveWebhook emptyService
          (.ok ("push".toList, "/ghost".toList, "m".toList))
          (fun _ => true) (fun _ _ => none)
        = ⟨200, [], [(([], "ghost".toList), none)]⟩ := by decide

/-- C3 (amended): for a verified delivery whose repo full name matches no
binding in any room: if the full name does not split into exactly two
`/`-separated segments (segments may be empty — emptiness is not
checked) the handler responds 400 and makes no delete attempt; otherwise
it makes exactly one hook-delete attempt for the two segments and
responds 200 regardless of the delete's outcome. -/
theorem C3_orphan_cleanup (s : GithubWebhookService) (ev fn msg : GoStr)
    (ok : GoStr → Bool) (del : GoStr → GoStr → Option GoStr)
    (h : ∀ room ∈ s.Rooms, ∀ kv ∈ room.2.Repos, eqFold fn kv.1 = false) :
    ((splitOnChar '/' fn).length ≠ 2 →
        (OnReceiveWebhook s (.ok (ev, fn, msg)) ok del).status = 400
          ∧ (OnReceiveWebhook s (.ok (ev, fn, msg)) ok del).deleteAttempts = [])
    ∧ ((splitOnChar '/' fn).length = 2 →
        (OnReceiveWebhook s (.ok (ev, fn, msg)) ok del).status = 200
          ∧ (OnReceiveWebhook s (.ok (ev, fn, msg)) ok del).deleteAttempts
              = [(((splitOnChar '/' fn).getD 0 [], (splitOnChar '/' fn).getD 1 []),
                  del ((splitOnChar '/' fn).getD 0 [])
                    ((splitOnChar '/' fn).getD 1 []))]) := by
  have h2 := route_unmatched s ev fn msg ok del h
  constructor
  · intro hlen
    rw [h2, if_neg hlen]
    exact ⟨rfl, rfl⟩
  · intro hlen
    rw [h2, if_pos hlen]
    exact ⟨rfl, rfl⟩

/-- C3, witness: the spec §8 orphan-cleanup example — a delivery for
`acme/ghost`, referenced by no room of the acme configuration, yields a
200 and exactly one delete attempt. -/
theorem C3_witness :
    (OnReceiveWebhook acmeService
        (.ok ("push".toList, "acme/ghost".toList, "m".toList))
        (fun _ => true) (fun _ _ => none)).status = 200
    ∧ (OnReceiveWebhook acmeService
        (.ok ("push".toList, "acme/ghost".toList, "m".toList))
        (fun _ => true) (fun _ _ => none)).deleteAttempts
      = [(((splitOnChar '/' ("acme/ghost".toList)).getD 0 [],
           (splitOnChar '/' ("acme/ghost".toList)).getD 1 []),
          (fun _ _ => (none : Option GoStr))
            ((splitOnChar '/' ("acme/ghost".toList)).getD 0 [])
            ((splitOnChar '/' ("acme/ghost".toList)).getD 1 []))] :=
  (C3_orphan_cleanup acmeService ("push".toList) ("acme/ghost".toList)
      ("m".toList) (fun _ => true) (fun _ _ => none) (by decide)).2 (by decide)

/-- C4: `PostRegister` with a castable old service attempts a hook
delete for exactly the repos of the old configuration absent from the
new one; per-repo delete failures are absorbed — neither the set of
attempts nor the final storage state depends on the delete outcomes;
and when the new configuration has zero rooms, the service record is
gone from storage afterwards while every repo previously present got a
delete attempt. -/
theorem C4_postRegister_cleanup (s old : GithubWebhookService) (db : List GoStr)
    (del del2 : GoStr → Option GoStr) (r : GoStr) :
    (r ∈ (PostRegister s (.github old) db del).deleteAttempts.map Prod.fst ↔
        r ∈ repoList old ∧ r ∉ repoList s)
    ∧ (PostRegister s (.github old) db del).deleteAttempts.map Prod.fst
        = (PostRegister s (.github old) db del2).deleteAttempts.map Prod.fst
    ∧ (PostRegister s (.github old) db del).finalDb
        = (PostRegister s (.github old) db del2).finalDb
    ∧ (s.Rooms = [] ∧ r ∈ repoList old →
        s.id ∉ (PostRegister s (.github old) db del).finalDb
          ∧ r ∈ (PostRegister s (.github old) db del).deleteAttempts.map Prod.fst) := by
  have hemp : s.Rooms = [] → repoList s = [] := by
    intro h
    unfold repoList
    rw [h]
    rfl
  refine ⟨?_, ?_, rfl, ?_⟩
  · simp [PostRegister, postRegisterCleanup, difference, List.mem_filter]
  · simp [PostRegister, postRegisterCleanup]
  · rintro ⟨h1, h2⟩
    have hrl := hemp h1
    constructor
    · simp [PostRegister, postRegisterCleanup, hrl]
    · simp [PostRegister, postRegisterCleanup, difference, List.mem_filter, hrl, h2]

/-- C4, witness: reconciling the acme configuration down to zero rooms —
the service record `svc3` is pruned from storage and the previously
present repo `acme/widgets` got a hook-delete attempt. -/
theorem C4_witness :
    emptyService.id ∉ (PostRegister emptyService (.github acmeService)
        ["svc3".toList] (fun _ => none)).finalDb
    ∧ "acme/widgets".toList ∈ (PostRegister emptyService (.github acmeService)
        ["svc3".toList] (fun _ => none)).deleteAttempts.map Prod.fst :=
  (C4_postRegister_cleanup emptyService acmeService ["svc3".toList]
      (fun _ => none) (fun _ => some ("err".toList))
      ("acme/widgets".toList)).2.2.2 ⟨rfl, by decide⟩

/-- C5: a create-hook call succeeds (no error) iff the provider reported
no error, or reported a 422 conflict as an `ErrorResponse` one of whose
error details contains "already exists"; in every other case — another
conflict detail, a non-`ErrorResponse` 422 error, any other status — the
error propagates unchanged.  Hence a second create for the same repo and
callback URL, which the provider answers with the already-exists
conflict, succeeds like the first. -/
theorem C5_createHook_conflict (s : GithubWebhookService) (ownerRepo : GoStr)
    (statusCode : Nat) (err : Option GHErr) :
    ((createHook s ownerRepo statusCode err).2 = none ↔
        err = none
          ∨ (statusCode = 422 ∧ ∃ msgs, err = some (.errorResponse msgs)
              ∧ msgs.any (fun m => containsSub m ("already exists".toList)) = true))
    ∧ ((createHook s ownerRepo statusCode err).2 = none
        ∨ (createHook s ownerRepo statusCode err).2 = err) := by
  unfold createHook
  by_cases hst : statusCode = 422
  · rcases err with _ | e
    · simp [hst]
    · rcases e with msgs | e
      · by_cases hmsg : msgs.any (fun m => containsSub m ("already exists".toList)) = true
        · simp [hst, hmsg]
          rw [List.any_eq_true] at hmsg
          exact Or.inl (by simpa using hmsg)
        · simp [hst, hmsg]
          rw [Bool.not_eq_true, List.any_eq_false] at hmsg
          exact Or.inr (by simpa using hmsg)
      · simp [hst]
  · rcases err with _ | e
    · simp [hst]
    · simp [hst]

/-- C8, counterexample: with a new configuration of zero rooms and a
non-castable old service, the claim implies PostRegister proceeds as
with an empty previous configuration, which self-prunes the service
from storage (second conjunct shows that outcome for an absent old
service); the code instead returns immediately, leaving the record in
storage and attempting nothing. -/
theorem C8_counterexample :
    PostRegister emptyService (.other ("x".toList) ("other-type".toList))
        ["svc3".toList] (fun _ => none)
      = ⟨[], ["svc3".toList]⟩
    ∧ PostRegister emptyService .nil ["svc3".toList] (fun _ => none)
      = ⟨[], []⟩ := by decide

/-- C8 (amended): `Register` proceeds with an empty previous repo set
both when the old service is absent and when it cannot be cast to the
github-webhook type (identical outcome to an absent old service, all
subsequent steps included); `PostRegister` proceeds with an empty old
repo set only when the old service is absent — when a present old
service fails the cast, it returns immediately and no phase-2 step
(neither hook removal nor self-pruning) executes. -/
theorem C8_old_service_cast (s : GithubWebhookService) (sid sty : GoStr)
    (env : RegisterEnv) (db : List GoStr) (del : GoStr → Option GoStr) :
    Register s (.other sid sty) env = Register s .nil env
    ∧ oldReposRegister (.other sid sty) = []
    ∧ oldReposRegister .nil = []
    ∧ PostRegister s .nil db del = postRegisterCleanup s [] db del
    ∧ PostRegister s (.other sid sty) db del = ⟨[], db⟩ :=
  ⟨rfl, rfl, rfl, rfl, rfl⟩

/-- C6: once `Register` reaches its no-webhooks guard (fields present,
realm loads with type github, client resolves), it fails with the
"No webhooks specified." ConfigError exactly when the new repo list is
empty and the removed set (old repos absent from the new configuration)
is empty; with an empty repo list but pending removals the guard
passes. -/
theorem C6_noWebhooks_guard (s : GithubWebhookService) (oldService : OldServiceArg)
    (env : RegisterEnv) (realm : AuthRealm)
    (h1 : s.RealmID ≠ []) (h2 : s.ClientUserID ≠ [])
    (h3 : env.realmLookup = .ok realm) (h4 : realm.realmType = "github".toList)
    (h5 : env.hasToken = true) :
    (Register s oldService env).result = some .noWebhooks ↔
      repoList s = []
        ∧ (difference (repoList s) (oldReposRegister oldService)).2 = [] := by
  have hre : s.RealmID.isEmpty = false := by
    cases hR : s.RealmID.isEmpty
    · rfl
    · rw [List.isEmpty_eq_true] at hR
      exact absurd hR h1
  have hcl : s.ClientUserID.isEmpty = false := by
    cases hR : s.ClientUserID.isEmpty
    · rfl
    · rw [List.isEmpty_eq_true] at hR
      exact absurd hR h2
  unfold Register loadRealm
  rw [hre, hcl, h3, h5]
  simp only [Bool.or_self, Bool.false_eq_true, if_false, h4, ne_eq,
    not_true_eq_false, Bool.true_eq_false]
  by_cases hg : ((repoList s).isEmpty
      && ((difference (repoList s) (oldReposRegister oldService)).2).isEmpty) = true
  · rw [if_pos hg]
    simp only [Bool.and_eq_true, List.isEmpty_eq_true] at hg
    simpa using hg
  · rw [if_neg hg]
    simp only [Bool.and_eq_true, List.isEmpty_eq_true] at hg
    have hrhs : ¬(repoList s = []
        ∧ (difference (repoList s) (oldReposRegister oldService)).2 = []) := hg
    rcases hc : (createLoop env.createOutcome
        (difference (repoList s) (oldReposRegister oldService)).1).2 with _ | ⟨r, e⟩
    · rcases hj : (joinLoop env.joinOutcome (s.Rooms.map Prod.fst)).2 with _ | ⟨rm, e⟩
      · simp [hc, hj, hrhs]
      · simp [hc, hj, hrhs]
    · simp [hc, hrhs]

/-- C6, witness: the guard at work — an old service holding
`acme/widgets` reconciled to a new configuration with zero rooms leaves
a non-empty removed set, so `Register` does not fail with the
no-webhooks error even though the new repo list is empty. -/
theorem C6_witness :
    (Register emptyService (.github acmeService) okEnv).result
        = some .noWebhooks ↔
      repoList emptyService = []
        ∧ (difference (repoList emptyService)
            (oldReposRegister (.github acmeService))).2 = [] :=
  C6_noWebhooks_guard emptyService (.github acmeService) okEnv githubRealm
    (by decide) (by decide) rfl (by decide) rfl

/-- C7: with no authenticated client, `deleteHook` fails with the auth
error without listing or deleting; hooks with a missing or non-string
`config["url"]` never match; with a client and a successful listing it
deletes the first hook whose string URL equals the bridge's endpoint
(and any selected hook does carry exactly that URL), and returns the
not-found error when no hook matches. -/
theorem C7_deleteHook (s : GithubWebhookService)
    (listResult : Except GoStr (List Hook)) (delOut : Nat → Option GoStr)
    (hooks : List Hook) (h : Hook) (n : Nat) :
    deleteHook s false listResult delOut = .noClient
    ∧ hookMatches s.webhookEndpointURL ⟨n, .missing⟩ = false
    ∧ hookMatches s.webhookEndpointURL ⟨n, .nonString⟩ = false
    ∧ (listResult = .ok hooks →
        ((∀ hk ∈ hooks, hookMatches s.webhookEndpointURL hk = false) →
            deleteHook s true listResult delOut = .notFound)
        ∧ (hooks.find? (hookMatches s.webhookEndpointURL) = some h →
            deleteHook s true listResult delOut
                = .deleted h.hookID (delOut h.hookID)
              ∧ h.config = .url s.webhookEndpointURL)) := by
  refine ⟨rfl, rfl, rfl, ?_⟩
  rintro rfl
  constructor
  · intro hall
    have hnone : hooks.find? (hookMatches s.webhookEndpointURL) = none :=
      List.find?_eq_none.mpr (fun x hx => by simp [hall x hx])
    simp [deleteHook, hnone]
  · intro hfind
    have hmatch : hookMatches s.webhookEndpointURL h = true := List.find?_some hfind
    constructor
    · simp [deleteHook, hfind]
    · unfold hookMatches at hmatch
      rcases hcfg : h.config with _ | _ | u
      · rw [hcfg] at hmatch
        simp at hmatch
      · rw [hcfg] at hmatch
        simp at hmatch
      · rw [hcfg] at hmatch
        simp only [beq_iff_eq] at hmatch
        rw [hmatch]

/-- C7, witness: on a listing holding a nil-url hook, a non-string-url
hook, a hook with a different URL and two hooks with the bridge's
endpoint, `deleteHook` deletes the first endpoint-matching hook (ID 4)
and that hook's URL is the bridge's endpoint. -/
theorem C7_witness :
    deleteHook acmeService true (.ok sampleHooks) (fun _ => none)
        = .deleted 4 none
    ∧ (⟨4, .url ("https://neb.example/webhook".toList)⟩ : Hook).config
        = .url acmeService.webhookEndpointURL :=
  ((C7_deleteHook acmeService (.ok sampleHooks) (fun _ => none) sampleHooks
      ⟨4, .url ("https://neb.example/webhook".toList)⟩ 0).2.2.2 rfl).2 (by decide)

/-- C9: Register succeeds only when the stored realm exists and has type
"github": whenever the realm lookup errors or yields a realm of another
type, Register returns an error having attempted no hook creation and no
room join — also when a provider client could otherwise be resolved. -/
theorem C9_realm_guard (s : GithubWebhookService) (oldService : OldServiceArg)
    (env : RegisterEnv)
    (h : (∃ e, env.realmLookup = .error e)
        ∨ ∃ realm, env.realmLookup = .ok realm
            ∧ realm.realmType ≠ "github".toList) :
    (Register s oldService env).result ≠ none
    ∧ (Register s oldService env).hooksAttempted = []
    ∧ (Register s oldService env).joinsAttempted = [] := by
  unfold Register loadRealm
  by_cases hg : (s.RealmID.isEmpty || s.ClientUserID.isEmpty) = true
  · rw [if_pos hg]
    exact ⟨by simp, rfl, rfl⟩
  · rw [if_neg hg]
    have hre : s.RealmID.isEmpty = false := by
      cases hR : s.RealmID.isEmpty
      · rfl
      · exact absurd (by simp [hR]) hg
    rcases h with ⟨e, heq⟩ | ⟨realm, heq, hty⟩
    · rw [heq, hre]
      refine ⟨?_, ?_, ?_⟩ <;> simp
    · rw [heq, hre]
      have hty2 : ¬realm.realmType = ['g', 'i', 't', 'h', 'u', 'b'] := by
        simpa using hty
      refine ⟨?_, ?_, ?_⟩ <;> simp [hty2]

/-- C9, witness: the realm stored for `realm1` has type "jira", so
Register on the acme configuration errors before creating any hook or
joining any room, although a token (hence a provider client) was
available. -/
theorem C9_witness :
    (Register acmeService .nil jiraEnv).result ≠ none
    ∧ (Register acmeService .nil jiraEnv).hooksAttempted = []
    ∧ (Register acmeService .nil jiraEnv).joinsAttempted = [] :=
  C9_realm_guard acmeService .nil jiraEnv
    (Or.inr ⟨⟨"realm1".toList, "jira".toList⟩, rfl, by decide⟩)

/-- C10: every repo string produced by `repoList` contains exactly one
`/`, so its split has exactly two segments and the unchecked indexings
(`o[0]`/`o[1]` in `createHook`, `segs[0]`/`segs[1]` in `PostRegister`,
whose removal set is drawn from the old service's `repoList`) are in
bounds: both positions of the split are present. -/
theorem C10_split_safety (s old : GithubWebhookService) (r r2 : GoStr)
    (db : List GoStr) (del : GoStr → Option GoStr) :
    (r ∈ repoList s →
        (splitOnChar '/' r).length = 2
          ∧ (createHookRequest s r).owner.isSome
          ∧ (createHookRequest s r).repo.isSome)
    ∧ (r2 ∈ (PostRegister s (.github old) db del).deleteAttempts.map Prod.fst →
        (splitOnChar '/' r2).length = 2
          ∧ ((splitOnChar '/' r2).get? 0).isSome
          ∧ ((splitOnChar '/' r2).get? 1).isSome) := by
  constructor
  · intro hmem
    have hcount := ((mem_repoList s r).mp hmem).1
    have hlen := splitOnChar_length_two '/' r hcount
    have hsome := get?_isSome_of_length_two _ hlen
    exact ⟨hlen, hsome.1, hsome.2⟩
  · intro hmem
    have hold : r2 ∈ repoList old := by
      simp [PostRegister, postRegisterCleanup, difference, List.mem_filter] at hmem
      exact hmem.1
    have hcount := ((mem_repoList old r2).mp hold).1
    have hlen := splitOnChar_length_two '/' r2 hcount
    have hsome := get?_isSome_of_length_two _ hlen
    exact ⟨hlen, hsome.1, hsome.2⟩

/-- C10, witness: the repo `acme/widgets` of the acme configuration
splits into exactly two segments and both indexed positions exist, in
`createHook`'s request and for the repo `PostRegister` removes when the
configuration is reconciled to zero rooms. -/
theorem C10_witness :
    ((splitOnChar '/' ("acme/widgets".toList)).length = 2
      ∧ (createHookRequest acmeService ("acme/widgets".toList)).owner.isSome
      ∧ (createHookRequest acmeService ("acme/widgets".toList)).repo.isSome)
    ∧ ((splitOnChar '/' ("acme/widgets".toList)).length = 2
      ∧ ((splitOnChar '/' ("acme/widgets".toList)).get? 0).isSome
      ∧ ((splitOnChar '/' ("acme/widgets".toList)).get? 1).isSome) :=
  ⟨(C10_split_safety acmeService acmeService ("acme/widgets".toList)
      ("acme/widgets".toList) [] (fun _ => none)).1 (by decide),
   (C10_split_safety emptyService acmeService ("acme/widgets".toList)
      ("acme/widgets".toList) [] (fun _ => none)).2 (by decide)⟩

end GoNeb
